import Mathlib

/-!
# Verification of the dependency-version resolution engine of
# alphagov/design-system-github-stats

This file is a shallow embedding, in Lean 4, of the core analysis code of the
repository: the `RepoData` class (lockfile location, lockfile parsing, direct
and indirect dependency extraction, disambiguation, error handling), the
`Result` class (`validate` / `getResult`), and the orchestration in
`analyseRepo` / `filterDeps` of `scripts/build-filtered-data.mjs`.

Modelling conventions:
* JavaScript strings are Lean `String`s; a value that may be `undefined`/`null`
  is an `Option`; JavaScript truthiness of a string value (`undefined`, `null`
  and `""` are falsy) is the `jsTruthy` predicate below.
* A repository file tree is the list of its entry paths (the source only ever
  reads `file.path` of tree entries).
* JavaScript objects used as string-keyed maps are association lists
  `List (String × α)` in insertion order; `obj?.[k]` is `jsGet`.
* Thrown JavaScript exceptions are the error component of `Except JsError`;
  `try { ... } catch` is a `match` on that component.
* The GitHub API client (`octokit.mjs`, an external collaborator) and the
  external parsing libraries (`JSON5.parse`, `@yarnpkg/lockfile`'s `parse`,
  `yaml`'s `parse`) are oracle functions supplied in a `GhEnv` record; a parser
  that throws on a given input is modelled as returning `none` / `.error`.
-/

namespace GhStats

/-- JavaScript truthiness for an optional string: `undefined` (`none`) and the
empty string are falsy. -/
def jsTruthy : Option String → Bool
  | none => false
  | some s => s ≠ ""

/-- JavaScript truthiness for an optional boolean (`undefined` is falsy). -/
def jsTruthyB : Option Bool → Bool
  | none => false
  | some b => b

/-- JavaScript `a || b` on two possibly-undefined string values: `b` is used
when `a` is `undefined` or `""` (falsy). -/
def jsOr (a b : Option String) : Option String :=
  if jsTruthy a then a else b

/-- JavaScript `obj?.[k]` on an object modelled as an association list:
the value at the first occurrence of key `k`. -/
def jsGet (m : List (String × α)) (k : String) : Option α :=
  (m.find? (fun kv => kv.1 == k)).map (·.2)

/-- JavaScript `s.startsWith(p)`, via `p.data.isPrefixOf s.data`. -/
def strStartsWith (s p : String) : Bool :=
  p.data.isPrefixOf s.data

/-- JavaScript `s.endsWith(p)`, via `p.data.isSuffixOf s.data`. -/
def strEndsWith (s p : String) : Bool :=
  p.data.isSuffixOf s.data

/-- Split a character list at the first occurrence of the (non-empty) pattern,
returning the part before and the part after it. -/
def splitFirstAux (pat : List Char) : List Char → Option (List Char × List Char)
  | [] => if pat = [] then some ([], []) else none
  | c :: cs =>
    if pat.isPrefixOf (c :: cs) then some ([], (c :: cs).drop pat.length)
    else match splitFirstAux pat cs with
      | some (a, b) => some (c :: a, b)
      | none => none

/-- JavaScript `s.replace(pat, rep)` with a string (non-regex) pattern:
only the first occurrence is replaced; if the pattern does not occur the
string is returned unchanged. -/
def jsReplace (s pat rep : String) : String :=
  match splitFirstAux pat.data s.data with
  | some (a, b) => ⟨a ++ rep.data ++ b⟩
  | none => s

/-- JavaScript `s.includes(pat)` (substring containment). -/
def strContains (s pat : String) : Bool :=
  (splitFirstAux pat.data s.data).isSome

/-- The JavaScript exceptions thrown and caught by the analysis code.
`requestError` is octokit's `RequestError`; `noMetaDataError`,
`noCommitsError`, `noRepoTreeError` and `unsupportedLockFileError` are the
`Error` subclasses declared in `repo-data.mjs`; `typeError` is a runtime
`TypeError`; `other` is any other `Error`. -/
inductive JsError
  | requestError (msg : String)
  | noMetaDataError
  | noCommitsError
  | noRepoTreeError
  | unsupportedLockFileError
  | typeError (msg : String)
  | other (msg : String)
deriving DecidableEq, Repr

/-- The string `error.toString()` as recorded in `errorThrown` by `handleError`. -/
def JsError.toMessage : JsError → String
  | .requestError msg => "HttpError: " ++ msg
  | .noMetaDataError => "Error"
  | .noCommitsError => "Error"
  | .noRepoTreeError => "Error"
  | .unsupportedLockFileError => "Error"
  | .typeError msg => "TypeError: " ++ msg
  | .other msg => "Error: " ++ msg

deriving instance DecidableEq for Except

/-! ## Data model -/

/-- One entry of a parsed lockfile object.  For a `package-lock.json` the
entries live under the `packages` (keys `node_modules/<name>`) or legacy
`dependencies` (bare-name keys) containers; for a `yarn.lock` the entries are
the top-level keys `"<name>@<range>"`.  The analysis code only ever reads the
fields below; any of them may be absent (`undefined`). -/
structure PLEntry where
  version : Option String := none
  dependencies : Option (List (String × String)) := none
  devDependencies : Option (List (String × String)) := none
  peerDependencies : Option (List (String × String)) := none
deriving DecidableEq, Repr

/-- A parsed lockfile object, as far as the analysis code inspects it.
A `package-lock.json`-shaped object carries the optional `packages` and
`dependencies` containers; a `yarn.lock`-shaped object is a flat map whose
top-level keys (`Object.keys`) are the `entries` below.  The source branches
on the `lockfileType` string before choosing which view to read, so one
structure with both views faithfully represents the duck-typed value. -/
structure JsLockfile where
  packages : Option (List (String × PLEntry)) := none
  dependencies : Option (List (String × PLEntry)) := none
  entries : List (String × PLEntry) := []
deriving DecidableEq, Repr

/-- A parsed `package.json` manifest, as far as the analysis code reads it. -/
structure Manifest where
  dependencies : Option (List (String × String)) := none
  devDependencies : Option (List (String × String)) := none
deriving DecidableEq, Repr

/-- An element of the `packageObjects` array: a manifest plus its tree path. -/
structure PackageObject where
  path : String
  content : Manifest
deriving DecidableEq, Repr

/-- A dependency record as pushed by `getDirectDependencies`,
`getDirectDependencyFromLockfile` and `getIndirectDependencyFromLockfile`:
`{ packagePath, frontendVersion }`, plus `parent` for indirect records.
`frontendVersion` is `none` when the property is set to `undefined` (the
lockfile lookup found nothing); `parent` is `none` when the property is not
present on the object. -/
structure DepRecord where
  packagePath : String
  frontendVersion : Option String := none
  parent : Option String := none
deriving DecidableEq, Repr

/-! ## `RepoData` leaf methods (`repo-data.mjs`) -/

/-- Method `RepoData.checkDenyList`: the repo (owner, name) matches some deny-list
entry (`denyList.some(item => owner === item.owner && name === item.name)`). -/
def checkDenyList (repoOwner repoName : String) (denyList : List (String × String)) : Bool :=
  denyList.any (fun item => repoOwner == item.1 && repoName == item.2)

/-- Method `RepoData.checkServiceOwner`: `serviceOwners.includes(repoOwner)`
(the service-owner registry passed as an array of owner strings). -/
def checkServiceOwner (serviceOwners : List String) (repoOwner : String) : Bool :=
  serviceOwners.contains repoOwner

/-- Method `RepoData.checkFileExists`: the tree has an entry whose path equals
`filePath` exactly. -/
def checkFileExists (filePath : String) (tree : List String) : Bool :=
  tree.any (fun file => file == filePath)

/-- Method `RepoData.getLockfileType` of `repo-data.mjs`:

```js
if (this.checkFileExists('package-lock.json', tree) ||
    this.checkFileExists(packagePath.replace('package.json', 'package-lock.json'), tree)) {
  lockfileType = 'package-lock.json'
} else if (this.checkFileExists('yarn.lock') || ...) { ... }
```

The first branch accepts a `package-lock.json` at the repository root *or*
colocated with the manifest.  The second branch calls
`this.checkFileExists('yarn.lock')` without passing `tree`, so `tree.some`
is evaluated with `tree === undefined` and a `TypeError` is thrown; the
`yarn.lock` case and the final `throw new UnsupportedLockFileError()` are
therefore unreachable. -/
def getLockfileType (packagePath : String) (tree : List String) : Except JsError String :=
  if checkFileExists "package-lock.json" tree ||
      checkFileExists (jsReplace packagePath "package.json" "package-lock.json") tree then
    .ok "package-lock.json"
  else
    .error (.typeError "Cannot read properties of undefined (reading 'some')")

/-- The `package-lock.json` direct lookup used by
`getDirectDependencyFromLockfile`:
`lockfileObject?.packages?.['node_modules/govuk-frontend']?.version ||
 lockfileObject?.dependencies?.['govuk-frontend']?.version`. -/
def plResolveDirect (lockfileObject : Option JsLockfile) : Option String :=
  jsOr
    (((lockfileObject.bind (·.packages)).bind
        (fun m => jsGet m "node_modules/govuk-frontend")).bind (·.version))
    (((lockfileObject.bind (·.dependencies)).bind
        (fun m => jsGet m "govuk-frontend")).bind (·.version))

/-- The `yarn.lock` direct lookup used by `getDirectDependencyFromLockfile`
and `getIndirectDependencyFromLockfile`:
`Object.keys(lockfileObject).find(key => key.startsWith('govuk-frontend@'))`.
`Object.keys` on `undefined`/`null` throws a `TypeError`. -/
def yarnFindKey (lockfileObject : Option JsLockfile) :
    Except JsError (Option (String × PLEntry)) :=
  match lockfileObject with
  | none => .error (.typeError "Cannot convert undefined or null to object")
  | some lf => .ok (lf.entries.find? (fun kv => strStartsWith kv.1 "govuk-frontend@"))

/-- Method `RepoData.getDirectDependencyFromLockfile`: resolves the version of
`govuk-frontend` from a parsed lockfile and returns
`{ frontendVersion: version, packagePath: path }`. -/
def getDirectDependencyFromLockfile (lockfileObject : Option JsLockfile)
    (lockfileType : String) (path : String) : Except JsError DepRecord :=
  if lockfileType == "package-lock.json" then
    .ok { packagePath := path, frontendVersion := plResolveDirect lockfileObject }
  else if lockfileType == "yarn.lock" then
    (yarnFindKey lockfileObject).map fun entry? =>
      { packagePath := path, frontendVersion := entry?.bind (·.2.version) }
  else
    .ok { packagePath := path, frontendVersion := none }

/-- JavaScript object spread `{...a, ...b}` on two string-keyed objects, as
seen by `Object.entries`: keys of `a` in order (with the value overridden by
`b` where `b` also has the key), then keys of `b` not present in `a`. -/
def jsMergeEntries (a b : List (String × PLEntry)) : List (String × PLEntry) :=
  a.map (fun kv =>
    match b.find? (fun kv2 => kv2.1 == kv.1) with
    | some kv2 => (kv.1, kv2.2)
    | none => kv) ++
  b.filter (fun kv2 => !a.any (fun kv => kv.1 == kv2.1))

/-- The per-entry declared range found by `getIndirectDependencyFromLockfile`:
`packageData.dependencies?.['govuk-frontend'] ||
 packageData.devDependencies?.['govuk-frontend'] ||
 packageData.peerDependencies?.['govuk-frontend']`. -/
def indirectDeclaredRange (packageData : PLEntry) : Option String :=
  jsOr (jsOr
      (packageData.dependencies.bind (fun m => jsGet m "govuk-frontend"))
      (packageData.devDependencies.bind (fun m => jsGet m "govuk-frontend")))
    (packageData.peerDependencies.bind (fun m => jsGet m "govuk-frontend"))

/-- Method `RepoData.getIndirectDependencyFromLockfile`: for a `package-lock.json`,
walk `Object.entries({...(lockfileObject.packages || {}), ...(lockfileObject.dependencies || {})})`
and push `{ parent: packageName, frontendVersion: version, packagePath: path }`
for every entry whose dependency/devDependency/peerDependency map declares
`govuk-frontend` (with a truthy declared range); for a `yarn.lock`, find the
single `govuk-frontend@...` key and push one record with that key as `parent`.
Note the property access `lockfileObject.packages` is not optional-chained, so
an `undefined` lockfile object (failed parse) throws a `TypeError`. -/
def getIndirectDependencyFromLockfile (lockfileObject : Option JsLockfile)
    (lockfileType : String) (path : String) : Except JsError (List DepRecord) :=
  if lockfileType == "package-lock.json" then
    match lockfileObject with
    | none => .error (.typeError "Cannot read properties of undefined (reading 'packages')")
    | some lf =>
      .ok ((jsMergeEntries (lf.packages.getD []) (lf.dependencies.getD [])).foldl
        (fun deps kv =>
          let version := indirectDeclaredRange kv.2
          if jsTruthy version then
            deps ++ [{ packagePath := path, frontendVersion := version, parent := some kv.1 }]
          else deps) [])
  else if lockfileType == "yarn.lock" then
    (yarnFindKey lockfileObject).map fun entry? =>
      match entry? with
      | some kv =>
        let version := kv.2.version
        if jsTruthy version then
          [{ packagePath := path, frontendVersion := version, parent := some kv.1 }]
        else []
      | none => []
      -- with no matching key, `lockfileObject[dependencyKey]?.version` is
      -- `undefined` and nothing is pushed
  else
    .ok []

/-- Method `RepoData.getDirectDependencies`: for each manifest, take
`content.dependencies?.['govuk-frontend']` if truthy, else
`content.devDependencies?.['govuk-frontend']` if truthy, and push
`{ packagePath, frontendVersion: version }` when a truthy version was found. -/
def getDirectDependencies : List PackageObject → List DepRecord
  | [] => []
  | packageObject :: rest =>
    let dep := packageObject.content.dependencies.bind (fun m => jsGet m "govuk-frontend")
    let version : Option String :=
      if jsTruthy dep then dep
      else
        let dev := packageObject.content.devDependencies.bind (fun m => jsGet m "govuk-frontend")
        if jsTruthy dev then dev else none
    (if jsTruthy version then
      [{ packagePath := packageObject.path, frontendVersion := version }]
     else []) ++ getDirectDependencies rest

/-- Method `RepoData.checkPrototype`: true when the tree contains `lib/usage_data.js`,
else false when there are no manifests, else true when some manifest's
runtime dependencies contain the key `govuk-prototype-kit`. -/
def checkPrototype (packageObjects : List PackageObject) (tree : List String) : Bool :=
  if tree.any (fun file => file == "lib/usage_data.js") then true
  else if packageObjects.length == 0 then false
  else packageObjects.any (fun packageObject =>
    match packageObject.content.dependencies with
    | some deps => (jsGet deps "govuk-prototype-kit").isSome
    | none => false)

/-- Method `RepoData.handleError`, its recognition of error classes: `RequestError`, `NoMetaDataError`,
`NoCommitsError`, `NoRepoTreeError` and `UnsupportedLockFileError` are logged
and absorbed; any other error is re-thrown (after `errorThrown.push`). -/
def handleErrorRecognized : JsError → Bool
  | .requestError _ => true
  | .noMetaDataError => true
  | .noCommitsError => true
  | .noRepoTreeError => true
  | .unsupportedLockFileError => true
  | .typeError _ => false
  | .other _ => false

/-! ## External collaborators (API client and parsing libraries) -/

/-- A call made through the API client (`octokit.mjs`). -/
inductive ApiCall
  | getRepo
  | getTree
  | getFile (path : String)
deriving DecidableEq, Repr

/-- The raw GraphQL metadata response fields read by `getRepoInfo`. -/
structure RepoInfoRaw where
  createdAt : Option String := none
  updatedAt : Option String := none
  latestCommitSHA : Option String := none
deriving DecidableEq, Repr

/-- The environment of one repository analysis: the API client's responses and
the behaviour of the external parsers on raw file content.  The parsers
(`JSON5.parse`, `@yarnpkg/lockfile`'s `parse`, `yaml`'s `parse`) are external
libraries; an input on which they throw is modelled as `none`/`.error`.
`JSON5.parse` is one function, viewed at manifest type or at lockfile type
according to the file being parsed. -/
structure GhEnv where
  repoInfo : Except JsError RepoInfoRaw
  repoTree : Except JsError (Option (List String))
  fileContent : String → Except JsError String
  json5Manifest : String → Option Manifest
  json5Lock : String → Option JsLockfile
  yarnLegacy : String → Option JsLockfile
  yaml : String → Except JsError (Option JsLockfile)

/-- Method `RepoData.parseLockfile`:

* `package-lock.json` → `JSON5.parse` inside `try`/`catch`; a parse failure is
  logged and the function returns `undefined`;
* `yarn.lock` → `yarnLock.parse(...).object` inside `try`/`catch`; on failure
  fall back to `parseYaml(lockfile.data)` — this fallback is **not** inside
  any `try`, so an error thrown by the YAML parser propagates to the caller;
* any other type → `undefined`. -/
def parseLockfile (env : GhEnv) (data : String) (lockfileType : String) :
    Except JsError (Option JsLockfile) :=
  if lockfileType == "package-lock.json" then
    .ok (env.json5Lock data)
  else if lockfileType == "yarn.lock" then
    match env.yarnLegacy data with
    | some o => .ok (some o)
    | none => env.yaml data
  else
    .ok none

/-! ## The dependency loops of `RepoData` -/

/-- The outcome of one of the `for`-loops with per-item `try`/`catch`
(`disambiguateDependencies`, `getIndirectDependencies`): the pushed results,
the strings pushed onto `this.errorThrown` by `handleError`, the API calls
made, and the exception that escaped the loop when `handleError` re-threw an
unrecognized error. -/
structure LoopOut (α : Type) where
  results : List α
  errs : List String
  calls : List ApiCall
  thrown : Option JsError := none
deriving DecidableEq, Repr

/-- The test `/^[~^*]/.test(dependency.frontendVersion)`: the version string
begins with `~`, `^` or `*`.  (`test` on `undefined` coerces it to the string
`"undefined"`, which does not match.) -/
def leadingRangeOp : Option String → Bool
  | some s => strStartsWith s "^" || strStartsWith s "~" || strStartsWith s "*"
  | none => false

/-- The `try` body of one iteration of `disambiguateDependencies`: when the
version matches `/^[~^*]/`, locate the lockfile type, fetch the lockfile at
`packagePath.replace('package.json', lockfileType)`, parse it and resolve the
record through `getDirectDependencyFromLockfile`; otherwise the dependency is
pushed unchanged.  Returns the record (or thrown error) and the API calls
made. -/
def disamBody (env : GhEnv) (tree : List String) (dep : DepRecord) :
    Except JsError DepRecord × List ApiCall :=
  if leadingRangeOp dep.frontendVersion then
    match getLockfileType dep.packagePath tree with
    | .error e => (.error e, [])
    | .ok lockfileType =>
      let lockPath := jsReplace dep.packagePath "package.json" lockfileType
      match env.fileContent lockPath with
      | .error e => (.error e, [.getFile lockPath])
      | .ok raw =>
        match parseLockfile env raw lockfileType with
        | .error e => (.error e, [.getFile lockPath])
        | .ok lockfileObject =>
          (getDirectDependencyFromLockfile lockfileObject lockfileType dep.packagePath,
            [.getFile lockPath])
  else (.ok dep, [])

/-- The `for`-loop of `disambiguateDependencies`: each iteration's `catch`
hands the error to `handleError`, which records `error.toString()` and either
absorbs a recognized error or re-throws, aborting the loop. -/
def disamLoop (env : GhEnv) (tree : List String) :
    List DepRecord → List DepRecord → List String → List ApiCall → LoopOut DepRecord
  | [], results, errs, calls => ⟨results, errs, calls, none⟩
  | dep :: rest, results, errs, calls =>
    match disamBody env tree dep with
    | (.ok r, c) => disamLoop env tree rest (results ++ [r]) errs (calls ++ c)
    | (.error e, c) =>
      if handleErrorRecognized e then
        disamLoop env tree rest results (errs ++ [e.toMessage]) (calls ++ c)
      else ⟨results, errs ++ [e.toMessage], calls ++ c, some e⟩

/-- Method `RepoData.disambiguateDependencies`: first, when no dependency has
`packagePath === 'package.json'`, a synthetic root entry
`{ packagePath: '', frontendVersion: '*' }` is pushed ("we want to try the
root directory in all cases"); then each dependency is processed in order. -/
def disambiguateDependencies (env : GhEnv) (tree : List String)
    (dependencies : List DepRecord) : LoopOut DepRecord :=
  let deps :=
    if dependencies.any (fun dep => dep.packagePath == "package.json") then dependencies
    else dependencies ++ [{ packagePath := "", frontendVersion := some "*" }]
  disamLoop env tree deps [] [] []

/-- The `try` body of one iteration of `getIndirectDependencies`: locate the
lockfile type, fetch the lockfile colocated with the manifest, parse it and
collect the indirect records. -/
def indirBody (env : GhEnv) (tree : List String) (packageObject : PackageObject) :
    Except JsError (List DepRecord) × List ApiCall :=
  match getLockfileType packageObject.path tree with
  | .error e => (.error e, [])
  | .ok lockfileType =>
    let lockPath := jsReplace packageObject.path "package.json" lockfileType
    match env.fileContent lockPath with
    | .error e => (.error e, [.getFile lockPath])
    | .ok raw =>
      match parseLockfile env raw lockfileType with
      | .error e => (.error e, [.getFile lockPath])
      | .ok lockfileObject =>
        (getIndirectDependencyFromLockfile lockfileObject lockfileType packageObject.path,
          [.getFile lockPath])

/-- The `for`-loop of `getIndirectDependencies` (same `catch` discipline as
`disamLoop`); each successful iteration pushes the whole list returned by
`getIndirectDependencyFromLockfile`. -/
def indirLoop (env : GhEnv) (tree : List String) :
    List PackageObject → List (List DepRecord) → List String → List ApiCall →
      LoopOut (List DepRecord)
  | [], results, errs, calls => ⟨results, errs, calls, none⟩
  | packageObject :: rest, results, errs, calls =>
    match indirBody env tree packageObject with
    | (.ok r, c) => indirLoop env tree rest (results ++ [r]) errs (calls ++ c)
    | (.error e, c) =>
      if handleErrorRecognized e then
        indirLoop env tree rest results (errs ++ [e.toMessage]) (calls ++ c)
      else ⟨results, errs ++ [e.toMessage], calls ++ c, some e⟩

/-- Method `RepoData.getIndirectDependencies`: when no manifest has path
`'package.json'`, a synthetic root entry `{ path: '', content: {} }` is
pushed; then each manifest-adjacent lockfile is processed in order. -/
def getIndirectDependencies (env : GhEnv) (tree : List String)
    (packageObjects : List PackageObject) : LoopOut (List DepRecord) :=
  let pos :=
    if packageObjects.any (fun pkg => pkg.path == "package.json") then packageObjects
    else packageObjects ++ [{ path := "", content := {} }]
  indirLoop env tree pos [] [] []

/-! ## The `Result` class (`helpers/result.mjs`) -/

/-- The fields of the `Result` accumulator read or written by the analysis.
`errorsThrown` and `unknownLockFileType` are `Option`s because `analyseRepo`
assigns them from properties that may be `undefined`.  The constructor
initializes `errorsThrown = []` and `unknownLockFileType = false`. -/
structure ResultState where
  builtByGovernment : Bool := false
  isPrototype : Bool := false
  createdAt : Option String := none
  updatedAt : Option String := none
  directDependencies : List DepRecord := []
  indirectDependencies : List (List DepRecord) := []
  errorsThrown : Option (List String) := some []
  unknownLockFileType : Option Bool := some false
deriving DecidableEq, Repr

/-- The object returned by `Result.getResult`. -/
structure ResultRecord where
  repoOwner : String
  repoName : String
  builtByGovernment : Bool
  updatedAt : Option String
  createdAt : Option String
  directDependencies : List DepRecord
  isPrototype : Bool
  isIndirect : Bool
  indirectDependencies : List (List DepRecord)
  errorsThrown : Option (List String)
  unknownLockFileType : Option Bool
  isValid : Bool
deriving DecidableEq, Repr

/-- Method `Result.validate`:

```js
let valid = true
if (this.directDependencies.length === 0 && this.indirectDependencies.length === 0
    && !this.unknownLockFileType) { valid = false }
if (this.errorsThrown.length > 0) { valid = false }
return valid
```

Reading `.length` of an `undefined` `errorsThrown` throws a `TypeError`
(the first `if` only logs, so evaluation order does not matter for the
result). -/
def validateR (direct : List DepRecord) (indirect : List (List DepRecord))
    (unknownLockFileType : Option Bool) (errorsThrown : Option (List String)) :
    Except JsError Bool :=
  match errorsThrown with
  | none => .error (.typeError "Cannot read properties of undefined (reading 'length')")
  | some errs =>
    let valid := true
    let valid :=
      if direct.length == 0 && indirect.length == 0 && !jsTruthyB unknownLockFileType then
        false
      else valid
    let valid := if errs.length > 0 then false else valid
    .ok valid

/-- Method `Result.getResult`: sets `this.unknownLockFileType = repoData.lockfileUnsupported`
(`RepoData` defines no `lockfileUnsupported` property, so the value is
`undefined`), computes `isIndirect`, calls `validate` and builds the returned
object.  Returns the mutated state together with the record, or the exception
`validate` threw. -/
def getResultR (repoOwner repoName : String) (st : ResultState) :
    ResultState × Except JsError ResultRecord :=
  let st := { st with unknownLockFileType := none }
  let isIndirect := st.directDependencies.length == 0
  match validateR st.directDependencies st.indirectDependencies
      st.unknownLockFileType st.errorsThrown with
  | .error e => (st, .error e)
  | .ok isValid =>
    (st, .ok {
      repoOwner, repoName,
      builtByGovernment := st.builtByGovernment,
      updatedAt := st.updatedAt,
      createdAt := st.createdAt,
      directDependencies := st.directDependencies,
      isPrototype := st.isPrototype,
      isIndirect,
      indirectDependencies := st.indirectDependencies,
      errorsThrown := st.errorsThrown,
      unknownLockFileType := st.unknownLockFileType,
      isValid })

/-! ## The orchestrator (`scripts/build-filtered-data.mjs`, `analyseRepo`) -/

/-- Method `RepoData.getRepoInfo`: fetch the GraphQL metadata, then throw
`NoMetaDataError` when `createdAt` is falsy and `NoCommitsError` when the
latest commit SHA is falsy. -/
def getRepoInfoValidated (env : GhEnv) : Except JsError RepoInfoRaw :=
  match env.repoInfo with
  | .error e => .error e
  | .ok r =>
    if !jsTruthy r.createdAt then .error .noMetaDataError
    else if !jsTruthy r.latestCommitSHA then .error .noCommitsError
    else .ok r

/-- The `Promise.all` over `getRepoFileContent` for a list of paths: all requests
are issued; the first failing one (in list order) rejects the whole batch. -/
def fetchAll (env : GhEnv) : List String → Except JsError (List String)
  | [] => .ok []
  | p :: rest =>
    match env.fileContent p with
    | .error e => .error e
    | .ok c => (fetchAll env rest).map (c :: ·)

/-- The outcome of `analyseRepo`'s `try` block: the `Result` fields set so
far, the strings pushed onto `repoData.errorThrown` by the loops, the API
calls made, and the exception reaching the `catch`, if any. -/
structure TryOut where
  st : ResultState
  errThrown : List String
  calls : List ApiCall
  caught : Option JsError
deriving DecidableEq, Repr

/-- The `try` block of `analyseRepo` after the deny-list check:
`checkServiceOwner`, `getRepoInfo`, `getRepoTree`, `getPackageFiles`
(fetch and `JSON5.parse` every `package.json` outside `node_modules`,
skipping files that fail to parse), `checkPrototype`,
`getDirectDependencies`, then indirect discovery when the direct scan found
nothing and disambiguation otherwise.  When a loop re-throws, the
corresponding assignment to `result` does not happen.
(The `result.service` lookup between the deny check and the metadata fetch
reads the service-owner registry only and cannot throw with an array-shaped
registry; it touches no field used below and is omitted.) -/
def tryBlock (env : GhEnv) (serviceOwners : List String) (repoOwner : String) : TryOut :=
  let st : ResultState := { builtByGovernment := checkServiceOwner serviceOwners repoOwner }
  let calls : List ApiCall := [.getRepo]
  match getRepoInfoValidated env with
  | .error e => ⟨st, [], calls, some e⟩
  | .ok info =>
    let st := { st with createdAt := info.createdAt, updatedAt := info.updatedAt }
    let calls := calls ++ [.getTree]
    match env.repoTree with
    | .error e => ⟨st, [], calls, some e⟩
    | .ok none => ⟨st, [], calls, some .noRepoTreeError⟩
    | .ok (some tree) =>
      let files := tree.filter
        (fun p => strEndsWith p "package.json" && !strContains p "node_modules")
      let calls := calls ++ files.map ApiCall.getFile
      match fetchAll env files with
      | .error e => ⟨st, [], calls, some e⟩
      | .ok contents =>
        let packageObjects := (files.zip contents).filterMap
          (fun pc => (env.json5Manifest pc.2).map (fun m => { path := pc.1, content := m }))
        let st := { st with isPrototype := checkPrototype packageObjects tree }
        let direct := getDirectDependencies packageObjects
        let st := { st with directDependencies := direct }
        if direct.length == 0 then
          let io := getIndirectDependencies env tree packageObjects
          match io.thrown with
          | some e => ⟨st, io.errs, calls ++ io.calls, some e⟩
          | none =>
            ⟨{ st with indirectDependencies := io.results }, io.errs, calls ++ io.calls, none⟩
        else
          let d := disambiguateDependencies env tree direct
          match d.thrown with
          | some e => ⟨st, d.errs, calls ++ d.calls, some e⟩
          | none =>
            ⟨{ st with directDependencies := d.results }, d.errs, calls ++ d.calls, none⟩

/-- The observable outcome of one `analyseRepo` call: the value returned
(`none` models the `null` return for deny-listed repos), the exception that
escaped the call if any, the final `Result` field values, the API calls made,
and the final `repoData.errorThrown` list. -/
structure AnalyseOut where
  returned : Option ResultRecord := none
  escaped : Option JsError := none
  state : ResultState := {}
  calls : List ApiCall := []
  errorThrown : List String := []
deriving DecidableEq, Repr

/-- The tail of `analyseRepo` after the `try`/`catch`:
`result.errorsThrown = repoData.errorsThrown` — `RepoData` defines
`errorThrown` (no `s`), so this property read yields `undefined` — followed
by `return result.getResult(repoData)`.  An exception from `getResult`
escapes `analyseRepo` (the `try` block has already ended). -/
def finishAnalyse (repoOwner repoName : String) (st : ResultState)
    (errThrown : List String) (calls : List ApiCall) : AnalyseOut :=
  let st := { st with errorsThrown := none }
  match getResultR repoOwner repoName st with
  | (st', .error e) =>
    { returned := none, escaped := some e, state := st', calls, errorThrown := errThrown }
  | (st', .ok rec) =>
    { returned := some rec, escaped := none, state := st', calls, errorThrown := errThrown }

/-- Function `analyseRepo` of `scripts/build-filtered-data.mjs`: construct `RepoData`
and `Result` (their constructors throw on a falsy owner or name), return
`null` immediately when the repo is deny-listed, run the `try` block, hand a
caught exception to `repoData.handleError` (which records it and re-throws
when unrecognized), then build the returned record. -/
def analyseRepo (env : GhEnv) (denyList : List (String × String))
    (serviceOwners : List String) (repoOwner repoName : String) : AnalyseOut :=
  if repoOwner == "" then { escaped := some (.other "repoOwner must be provided") }
  else if repoName == "" then { escaped := some (.other "repoName must be provided") }
  else if checkDenyList repoOwner repoName denyList then {}
  else
    let t := tryBlock env serviceOwners repoOwner
    match t.caught with
    | some e =>
      let errThrown := t.errThrown ++ [e.toMessage]
      if handleErrorRecognized e then
        finishAnalyse repoOwner repoName t.st errThrown t.calls
      else
        { returned := none, escaped := some e, state := t.st, calls := t.calls,
          errorThrown := errThrown }
    | none => finishAnalyse repoOwner repoName t.st t.errThrown t.calls

/-! ## The batch driver (`scripts/build-filtered-data.mjs`, `filterDeps`) -/

/-- The per-repository loop of `filterDeps`, given the outcome of each
repository's `analyseRepo` call: a truthy returned record is pushed onto
`builtData` and the repository's index onto `processedIndexes`; a `null`
return still marks the index processed; an exception skips both pushes —
`catch (error) { if (error instanceof RequestError) { continue } }` neither
records nor re-raises any exception.  (Batch flushing and the rate-limit
log call are omitted: they do not touch `builtData` membership or
`processedIndexes`.) -/
def driverLoop : List AnalyseOut → Nat → List ResultRecord → List Nat →
    List ResultRecord × List Nat
  | [], _, built, processed => (built, processed)
  | out :: rest, idx, built, processed =>
    match out.escaped with
    | some _ => driverLoop rest (idx + 1) built processed
    | none =>
      let built := match out.returned with | some r => built ++ [r] | none => built
      driverLoop rest (idx + 1) built (processed ++ [idx])

/-- Function `filterDeps`, its accumulation over a list of per-repository outcomes. -/
def filterDepsDriver (outs : List AnalyseOut) : List ResultRecord × List Nat :=
  driverLoop outs 0 [] []

/-! ## Concrete fixtures

Small concrete environments used to evaluate the embedded code on specific
inputs. -/

/-- A lockfile whose `packages` container resolves `govuk-frontend` to
`3.2.1`. -/
def c1CexLockA : JsLockfile :=
  { packages := some [("node_modules/govuk-frontend", { version := some "3.2.1" })] }

/-- Environment for claim C1, scenario A: the colocated `package-lock.json`
(raw content `"L1"`) parses to `c1CexLockA`. -/
def c1CexEnvA : GhEnv :=
  { repoInfo := .error (.requestError "x"), repoTree := .ok none,
    fileContent := fun p =>
      if p == "package-lock.json" then .ok "L1" else .error (.requestError "Not Found"),
    json5Manifest := fun _ => none,
    json5Lock := fun s => if s == "L1" then some c1CexLockA else none,
    yarnLegacy := fun _ => none, yaml := fun _ => .error (.other "YAMLParseError") }

/-- A legacy-format `yarn.lock` object resolving `govuk-frontend` to
`1.2.3`. -/
def c1CexYarnB : JsLockfile :=
  { entries := [("govuk-frontend@^1.0.0", { version := some "1.2.3" })] }

/-- Environment for claim C1, scenario B: the colocated `app/yarn.lock` (raw
content `"YB"`) parses to `c1CexYarnB`; no `app/package-lock.json` exists, so
fetching it fails with a 404 `RequestError`. -/
def c1CexEnvB : GhEnv :=
  { repoInfo := .error (.requestError "x"), repoTree := .ok none,
    fileContent := fun p =>
      if p == "app/yarn.lock" then .ok "YB" else .error (.requestError "Not Found"),
    json5Manifest := fun _ => none,
    json5Lock := fun _ => none,
    yarnLegacy := fun s => if s == "YB" then some c1CexYarnB else none,
    yaml := fun _ => .error (.other "YAMLParseError") }

/-- A lockfile resolving `govuk-frontend` to `3.11.0`. -/
def c1WitLock : JsLockfile :=
  { packages := some [("node_modules/govuk-frontend", { version := some "3.11.0" })] }

/-- Environment for the C1 witness: the root manifest's colocated
`package-lock.json` (raw content `"LW"`) parses to `c1WitLock`. -/
def c1WitEnv : GhEnv :=
  { repoInfo := .error (.requestError "x"), repoTree := .ok none,
    fileContent := fun p =>
      if p == "package-lock.json" then .ok "LW" else .error (.requestError "Not Found"),
    json5Manifest := fun _ => none,
    json5Lock := fun s => if s == "LW" then some c1WitLock else none,
    yarnLegacy := fun _ => none, yaml := fun _ => .error (.other "YAMLParseError") }

/-- A root lockfile resolving `govuk-frontend` to `3.12.0`. -/
def c2RootLock : JsLockfile :=
  { packages := some [("node_modules/govuk-frontend", { version := some "3.12.0" })] }

/-- Environment for claim C2: the repository-root `package-lock.json` (raw
content `"L2"`) parses to `c2RootLock`; every other path (in particular the
colocated `app/package-lock.json`) fails with a 404 `RequestError`. -/
def c2CexEnv : GhEnv :=
  { repoInfo := .error (.requestError "x"), repoTree := .ok none,
    fileContent := fun p =>
      if p == "package-lock.json" then .ok "L2" else .error (.requestError "Not Found"),
    json5Manifest := fun _ => none,
    json5Lock := fun s => if s == "L2" then some c2RootLock else none,
    yarnLegacy := fun _ => none, yaml := fun _ => .error (.other "YAMLParseError") }

/-- The package-lock of the C3 failing input (spec Scenario 2):
`packages["node_modules/some-plugin"].dependencies["govuk-frontend"] = "^3.0.0"`
and `packages["node_modules/govuk-frontend"].version = "3.2.1"`. -/
def c3Lock : JsLockfile :=
  { packages := some [
      ("node_modules/some-plugin", { dependencies := some [("govuk-frontend", "^3.0.0")] }),
      ("node_modules/govuk-frontend", { version := some "3.2.1" })] }

/-- Environment for claim C4: a repository whose analysis succeeds end to end —
metadata and tree fetch fine, the root manifest declares
`"govuk-frontend": "^3.11.0"`, and the root `package-lock.json` resolves it to
`3.11.0`. -/
def c4Env : GhEnv :=
  { repoInfo := .ok { createdAt := some "2024-01-01T00:00:00Z",
                      updatedAt := some "2024-06-01T00:00:00Z",
                      latestCommitSHA := some "abc123" },
    repoTree := .ok (some ["package.json", "package-lock.json"]),
    fileContent := fun p =>
      if p == "package.json" then .ok "MANIFEST"
      else if p == "package-lock.json" then .ok "LOCKC" else .error (.requestError "Not Found"),
    json5Manifest := fun s =>
      if s == "MANIFEST" then some { dependencies := some [("govuk-frontend", "^3.11.0")] }
      else none,
    json5Lock := fun s =>
      if s == "LOCKC" then
        some { packages := some [("node_modules/govuk-frontend", { version := some "3.11.0" })] }
      else none,
    yarnLegacy := fun _ => none, yaml := fun _ => .error (.other "YAMLParseError") }

/-- Environment for claim C5: raw content on which the legacy yarn parser
throws (modelled as `none`) and the YAML parser also throws. -/
def c5CexEnv : GhEnv :=
  { repoInfo := .error (.requestError "x"), repoTree := .ok none,
    fileContent := fun _ => .error (.requestError "x"),
    json5Manifest := fun _ => none, json5Lock := fun _ => none,
    yarnLegacy := fun _ => none,
    yaml := fun _ => .error (.other "YAMLParseError: bad yarn.lock") }

/-- An inert environment for the C7 witness (a deny-listed repository must
make no use of it). -/
def c7WitEnv : GhEnv :=
  { repoInfo := .error (.requestError "x"), repoTree := .ok none,
    fileContent := fun _ => .error (.requestError "x"),
    json5Manifest := fun _ => none, json5Lock := fun _ => none,
    yarnLegacy := fun _ => none, yaml := fun _ => .ok none }

/-- The C8 counterexample manifest: `govuk-frontend` appears in the runtime
dependencies with the (falsy) empty-string range and in the development
dependencies with `3.0.0`. -/
def c8CexManifest : PackageObject :=
  { path := "package.json",
    content := { dependencies := some [("govuk-frontend", "")],
                 devDependencies := some [("govuk-frontend", "3.0.0")] } }

/-! ## General lemmas about the dependency loops -/

/-- Records already accumulated are in the loop's final results. -/
theorem disamLoop_mem_acc (env : GhEnv) (tree : List String) (l : List DepRecord) :
    ∀ (acc : List DepRecord) (errs : List String) (calls : List ApiCall) (r : DepRecord),
      r ∈ acc → r ∈ (disamLoop env tree l acc errs calls).results := by
  induction l with
  | nil => intro acc errs calls r h; simpa [disamLoop] using h
  | cons dep rest ih =>
    intro acc errs calls r h
    unfold disamLoop
    rcases hb : disamBody env tree dep with ⟨exc, c⟩
    rcases exc with e | v
    · by_cases hrec : handleErrorRecognized e
      · simp only [hb, hrec, if_pos]
        exact ih _ _ _ r h
      · simp only [hb, hrec, if_neg, Bool.false_eq_true, not_false_iff]
        simpa using h
    · simp only [hb]
      exact ih _ _ _ r (by simp [h])

/-- A successfully processed dependency's record is in the final results,
provided the loop did not abort. -/
theorem disamLoop_mem_of_ok (env : GhEnv) (tree : List String) (l : List DepRecord) :
    ∀ (acc : List DepRecord) (errs : List String) (calls : List ApiCall)
      (d : DepRecord) (rec : DepRecord),
      d ∈ l → (disamBody env tree d).1 = .ok rec →
      (disamLoop env tree l acc errs calls).thrown = none →
      rec ∈ (disamLoop env tree l acc errs calls).results := by
  induction l with
  | nil => intro acc errs calls d rec hd; simp at hd
  | cons dep rest ih =>
    intro acc errs calls d rec hd hok hnothrow
    rcases List.mem_cons.mp hd with hd1 | hd2
    · subst hd1
      unfold disamLoop at hnothrow ⊢
      rcases hb : disamBody env tree d with ⟨exc, c⟩
      rcases exc with e | v
      · rw [hb] at hok; cases hok
      · rw [hb] at hok
        injection hok with hv
        subst hv
        simp only [hb]
        exact disamLoop_mem_acc env tree rest _ _ _ _ (by simp)
    · unfold disamLoop at hnothrow ⊢
      rcases hb : disamBody env tree dep with ⟨exc, c⟩
      rcases exc with e | v
      · by_cases hrec : handleErrorRecognized e
        · simp only [hb, hrec, if_pos] at hnothrow ⊢
          exact ih _ _ _ d rec hd2 hok hnothrow
        · simp only [hb, hrec] at hnothrow
          simp at hnothrow
      · simp only [hb] at hnothrow ⊢
        exact ih _ _ _ d rec hd2 hok hnothrow

/-- Every record in the loop's results was accumulated before the loop or
produced by a successful `disamBody` run on a processed dependency. -/
theorem disamLoop_results_origin (env : GhEnv) (tree : List String) (l : List DepRecord) :
    ∀ (acc : List DepRecord) (errs : List String) (calls : List ApiCall) (rec : DepRecord),
      rec ∈ (disamLoop env tree l acc errs calls).results →
      rec ∈ acc ∨ ∃ d ∈ l, (disamBody env tree d).1 = .ok rec := by
  induction l with
  | nil => intro acc errs calls rec h; exact Or.inl (by simpa [disamLoop] using h)
  | cons dep rest ih =>
    intro acc errs calls rec h
    unfold disamLoop at h
    rcases hb : disamBody env tree dep with ⟨exc, c⟩
    rcases exc with e | v
    · by_cases hrec : handleErrorRecognized e
      · simp only [hb, hrec, if_pos] at h
        rcases ih _ _ _ rec h with h1 | ⟨d, hd, hok⟩
        · exact Or.inl h1
        · exact Or.inr ⟨d, List.mem_cons_of_mem _ hd, hok⟩
      · simp only [hb, hrec] at h
        simp at h
        exact Or.inl h
    · simp only [hb] at h
      rcases ih _ _ _ rec h with h1 | ⟨d, hd, hok⟩
      · rcases List.mem_append.mp h1 with h2 | h3
        · exact Or.inl h2
        · have hrv : rec = v := by simpa using h3
          subst hrv
          exact Or.inr ⟨dep, List.mem_cons_self _ _, by rw [hb]⟩
      · exact Or.inr ⟨d, List.mem_cons_of_mem _ hd, hok⟩

/-- A record produced by `getDirectDependencyFromLockfile` carries the path it
was called with. -/
theorem getDirectDependencyFromLockfile_path (lockfileObject : Option JsLockfile)
    (lockfileType path : String) (rec : DepRecord)
    (h : getDirectDependencyFromLockfile lockfileObject lockfileType path = .ok rec) :
    rec.packagePath = path := by
  unfold getDirectDependencyFromLockfile at h
  split at h
  · injection h with h1; subst h1; rfl
  · split at h
    · unfold Except.map at h
      rcases hy : yarnFindKey lockfileObject with e | v
      · rw [hy] at h; cases h
      · rw [hy] at h; injection h with h1; subst h1; rfl
    · injection h with h1; subst h1; rfl

/-- A record produced by `disamBody` carries the processed dependency's path. -/
theorem disamBody_path (env : GhEnv) (tree : List String) (d : DepRecord) (rec : DepRecord)
    (h : (disamBody env tree d).1 = .ok rec) : rec.packagePath = d.packagePath := by
  unfold disamBody at h
  split at h
  · rcases hl : getLockfileType d.packagePath tree with e | lt
    · simp [hl] at h
    · simp only [hl] at h
      rcases hf : env.fileContent (jsReplace d.packagePath "package.json" lt) with e | raw
      · simp [hf] at h
      · simp only [hf] at h
        rcases hp : parseLockfile env raw lt with e | lo
        · simp [hp] at h
        · simp only [hp] at h
          exact getDirectDependencyFromLockfile_path lo lt d.packagePath rec h
  · injection h with h1; subst h1; rfl

/-- When the manifest declares a leading-range-operator version and a
`package-lock.json` is colocated with it, whose fetched content parses to a
lockfile `L`, `disamBody` resolves the record through the lockfile lookup. -/
theorem disamBody_resolves (env : GhEnv) (tree : List String) (r : DepRecord)
    (v V raw : String) (L : JsLockfile)
    (hv : r.frontendVersion = some v)
    (hop : leadingRangeOp (some v) = true)
    (hcol : checkFileExists (jsReplace r.packagePath "package.json" "package-lock.json") tree = true)
    (hfetch : env.fileContent (jsReplace r.packagePath "package.json" "package-lock.json") = .ok raw)
    (hparse : env.json5Lock raw = some L)
    (hres : plResolveDirect (some L) = some V) :
    (disamBody env tree r).1
      = .ok { packagePath := r.packagePath, frontendVersion := some V } := by
  have hlt : getLockfileType r.packagePath tree = .ok "package-lock.json" := by
    unfold getLockfileType
    rw [hcol]
    simp
  unfold disamBody
  rw [hv, hop]
  simp only [if_pos]
  simp only [hlt, hfetch]
  have hpl : parseLockfile env raw "package-lock.json" = .ok (some L) := by
    unfold parseLockfile
    rw [hparse]
    simp
  simp only [hpl]
  unfold getDirectDependencyFromLockfile
  simp [hres]

/-- When the manifest declares a leading-range-operator version but fetching
the colocated `package-lock.json` path fails, `disamBody` cannot succeed:
either the locator chose `package-lock.json` and the fetch throws, or no
`package-lock.json` exists at all and the locator itself throws. -/
theorem disamBody_fails (env : GhEnv) (tree : List String) (r : DepRecord)
    (v : String) (e : JsError)
    (hv : r.frontendVersion = some v)
    (hop : leadingRangeOp (some v) = true)
    (hfetch : env.fileContent (jsReplace r.packagePath "package.json" "package-lock.json") = .error e) :
    ∀ rec : DepRecord, (disamBody env tree r).1 ≠ .ok rec := by
  intro rec hok
  unfold disamBody at hok
  rw [hv, hop] at hok
  simp only [if_pos] at hok
  by_cases hor : (checkFileExists "package-lock.json" tree ||
      checkFileExists (jsReplace r.packagePath "package.json" "package-lock.json") tree) = true
  · have hlt : getLockfileType r.packagePath tree = .ok "package-lock.json" := by
      unfold getLockfileType
      rw [if_pos hor]
    simp only [hlt] at hok
    simp [hfetch] at hok
  · have hlt : getLockfileType r.packagePath tree
        = .error (.typeError "Cannot read properties of undefined (reading 'some')") := by
      unfold getLockfileType
      rw [if_neg hor]
    simp [hlt] at hok

/-- Lemma: `finishAnalyse` always escapes with the `TypeError` thrown by
`Result.validate` reading `.length` of the `undefined` `errorsThrown`
(`analyseRepo` set it from the non-existent `repoData.errorsThrown`
property), leaving the dependency fields of the state untouched. -/
theorem finishAnalyse_eq (repoOwner repoName : String) (st : ResultState)
    (errThrown : List String) (calls : List ApiCall) :
    finishAnalyse repoOwner repoName st errThrown calls
      = { returned := none,
          escaped := some (.typeError "Cannot read properties of undefined (reading 'length')"),
          state := { st with errorsThrown := none, unknownLockFileType := none },
          calls := calls, errorThrown := errThrown } := rfl

/-- In the state built by `tryBlock`, `directDependencies` and
`indirectDependencies` are never both non-empty: indirect discovery runs only
when the direct scan was empty, and when disambiguation runs (or throws) the
indirect list keeps its initial `[]`. -/
theorem tryBlock_dj (env : GhEnv) (serviceOwners : List String) (repoOwner : String) :
    (tryBlock env serviceOwners repoOwner).st.directDependencies = [] ∨
    (tryBlock env serviceOwners repoOwner).st.indirectDependencies = [] := by
  unfold tryBlock
  repeat' split
  all_goals first
    | exact Or.inl rfl
    | exact Or.inr rfl
    | (dsimp only
       repeat' split
       all_goals first
         | exact Or.inl rfl
         | exact Or.inr rfl
         | simp_all [List.length_eq_zero])

/-! ## The claims -/

/-- C1, counterexample to the claim as stated.  The claim says: for every
manifest declaring the target with a version *containing* a range operator
(`^`, `~` or `*`), if the colocated lockfile resolves the target to a
concrete version V, the record returned by `disambiguateDependencies`
carries V.  Two concrete refutations: (A) the version `"3.*"` contains `*`
but does not *begin* with an operator, so the code's `/^[~^*]/` test fails
and the raw range `"3.*"` is pushed unchanged even though the colocated
`package-lock.json` resolves the target to `3.2.1`; (B) when the colocated
lockfile is a `yarn.lock` (resolving `1.2.3`) but a root `package-lock.json`
exists, the locator picks `package-lock.json`, the colocated fetch 404s and
no record at all is emitted for the manifest. -/
theorem c1_range_disambiguation_cex :
    ("3.*".data.contains '*' = true
      ∧ plResolveDirect (some c1CexLockA) = some "3.2.1"
      ∧ disambiguateDependencies c1CexEnvA ["package.json", "package-lock.json"]
          [{ packagePath := "package.json", frontendVersion := some "3.*" }]
        = { results := [{ packagePath := "package.json", frontendVersion := some "3.*" }],
            errs := [], calls := [], thrown := none })
    ∧ (checkFileExists "app/yarn.lock" ["package-lock.json", "app/package.json", "app/yarn.lock"] = true
      ∧ getDirectDependencyFromLockfile (c1CexEnvB.yarnLegacy "YB") "yarn.lock" "app/package.json"
          = .ok { packagePath := "app/package.json", frontendVersion := some "1.2.3" }
      ∧ (disambiguateDependencies c1CexEnvB
            ["package-lock.json", "app/package.json", "app/yarn.lock"]
            [{ packagePath := "app/package.json", frontendVersion := some "^1.0.0" }]).results
        = []) := by
  refine ⟨⟨by decide, by decide, by decide⟩, ⟨by decide, by decide, by decide⟩⟩

/-- C1, amended: for every dependency entry processed by
`disambiguateDependencies` whose declared version *begins* with a range
operator (`^`, `~`, `*`), if a `package-lock.json` is colocated with the
manifest, its fetch succeeds and its content parses to a lockfile that
resolves `govuk-frontend` to the concrete version V, and the loop completes
without an escaping error, then the record emitted for that manifest carries
V (not the raw range). -/
theorem c1_range_disambiguation (env : GhEnv) (tree : List String)
    (deps : List DepRecord) (r : DepRecord) (v V raw : String) (L : JsLockfile)
    (hmem : r ∈ deps)
    (hv : r.frontendVersion = some v)
    (hop : leadingRangeOp (some v) = true)
    (hcol : checkFileExists (jsReplace r.packagePath "package.json" "package-lock.json") tree = true)
    (hfetch : env.fileContent (jsReplace r.packagePath "package.json" "package-lock.json") = .ok raw)
    (hparse : env.json5Lock raw = some L)
    (hres : plResolveDirect (some L) = some V)
    (hnothrow : (disambiguateDependencies env tree deps).thrown = none) :
    ({ packagePath := r.packagePath, frontendVersion := some V } : DepRecord)
      ∈ (disambiguateDependencies env tree deps).results := by
  have hbody := disamBody_resolves env tree r v V raw L hv hop hcol hfetch hparse hres
  unfold disambiguateDependencies at hnothrow ⊢
  by_cases hc : deps.any (fun dep => dep.packagePath == "package.json")
  · simp only [hc, if_pos] at hnothrow ⊢
    exact disamLoop_mem_of_ok env tree deps [] [] [] r _ hmem hbody hnothrow
  · simp only [hc, if_neg, Bool.false_eq_true, not_false_iff] at hnothrow ⊢
    exact disamLoop_mem_of_ok env tree _ [] [] [] r _ (List.mem_append_left _ hmem) hbody hnothrow

/-- C1 witness: a root manifest declaring `^3.11.0` whose colocated
`package-lock.json` resolves the target to `3.11.0` yields a record carrying
`3.11.0`. -/
theorem c1_range_disambiguation_witness :
    ({ packagePath := "package.json", frontendVersion := some "3.11.0" } : DepRecord)
      ∈ (disambiguateDependencies c1WitEnv ["package.json", "package-lock.json"]
          [{ packagePath := "package.json", frontendVersion := some "^3.11.0" }]).results :=
  c1_range_disambiguation c1WitEnv ["package.json", "package-lock.json"]
    [{ packagePath := "package.json", frontendVersion := some "^3.11.0" }]
    { packagePath := "package.json", frontendVersion := some "^3.11.0" }
    "^3.11.0" "3.11.0" "LW" c1WitLock
    (by decide) rfl (by decide) (by decide) rfl rfl (by decide) (by decide)

/-- C2, counterexample to the claim as stated.  The claim says: with no
colocated lockfile but a root lockfile resolving the target to V, the
emitted record's actual version equals V; with neither lockfile, the actual
version is absent.  Concretely: (first conjunct) the root `package-lock.json`
resolves the target to `3.12.0` and no `app/package-lock.json` is colocated
with the manifest, yet `disambiguateDependencies` emits *no* record at all
(the colocated fetch fails and is merely logged); (second conjunct) with no
`package-lock.json` anywhere — only a colocated `app/yarn.lock` — the
locator throws a `TypeError` that escapes the loop instead of any record
being emitted. -/
theorem c2_root_fallback_cex :
    (plResolveDirect (some c2RootLock) = some "3.12.0"
      ∧ checkFileExists "package-lock.json" ["app/package.json", "package-lock.json"] = true
      ∧ checkFileExists "app/package-lock.json" ["app/package.json", "package-lock.json"] = false
      ∧ (disambiguateDependencies c2CexEnv ["app/package.json", "package-lock.json"]
          [{ packagePath := "app/package.json", frontendVersion := some "^3.11.0" }]).results
        = [])
    ∧ (checkFileExists "app/yarn.lock" ["app/package.json", "app/yarn.lock"] = true
      ∧ (disambiguateDependencies c2CexEnv ["app/package.json", "app/yarn.lock"]
          [{ packagePath := "app/package.json", frontendVersion := some "^3.11.0" }]).thrown
        = some (.typeError "Cannot read properties of undefined (reading 'some')")) := by
  refine ⟨⟨by decide, by decide, by decide, by decide⟩, ⟨by decide, by decide⟩⟩

/-- C2, amended: the code never falls back to the root lockfile for a
manifest.  (1) For a dependency whose version begins with a range operator,
when no `package-lock.json` is colocated with its manifest and fetching the
colocated path fails, `disambiguateDependencies` emits no record for that
manifest path (whether or not a root `package-lock.json` exists).  (2) When
no `package-lock.json` exists at the root or colocated, `getLockfileType`'s
`checkFileExists('yarn.lock')` call — made without the tree argument —
throws a `TypeError` which escapes the loop (recorded and re-thrown by
`handleError`). -/
theorem c2_no_root_fallback :
    (∀ (env : GhEnv) (tree : List String) (deps : List DepRecord)
       (r : DepRecord) (v : String) (e : JsError),
       r ∈ deps →
       r.frontendVersion = some v →
       leadingRangeOp (some v) = true →
       r.packagePath ≠ "" →
       checkFileExists (jsReplace r.packagePath "package.json" "package-lock.json") tree = false →
       env.fileContent (jsReplace r.packagePath "package.json" "package-lock.json") = .error e →
       (∀ d ∈ deps, d.packagePath = r.packagePath → d = r) →
       (disambiguateDependencies env tree deps).results.filter
           (fun rec => rec.packagePath == r.packagePath)
         = []) ∧
    (∀ (env : GhEnv) (tree : List String) (r : DepRecord) (v : String),
       r.frontendVersion = some v →
       leadingRangeOp (some v) = true →
       checkFileExists "package-lock.json" tree = false →
       checkFileExists (jsReplace r.packagePath "package.json" "package-lock.json") tree = false →
       (disambiguateDependencies env tree [r]).thrown
         = some (.typeError "Cannot read properties of undefined (reading 'some')")) := by
  constructor
  · intro env tree deps r v e hmem hv hop hne hcol hfetch huniq
    rw [List.filter_eq_nil_iff]
    intro rec hrec hbeq
    have heq : rec.packagePath = r.packagePath := by simpa using hbeq
    unfold disambiguateDependencies at hrec
    have horigin : rec ∈ ([] : List DepRecord) ∨
        ∃ d ∈ (if deps.any (fun dep => dep.packagePath == "package.json") then deps
               else deps ++ [{ packagePath := "", frontendVersion := some "*" }]),
          (disamBody env tree d).1 = .ok rec := by
      by_cases hc : deps.any (fun dep => dep.packagePath == "package.json")
      · simp only [hc, if_pos] at hrec ⊢
        exact disamLoop_results_origin env tree deps [] [] [] rec hrec
      · simp only [hc, if_neg, Bool.false_eq_true, not_false_iff] at hrec ⊢
        exact disamLoop_results_origin env tree _ [] [] [] rec hrec
    rcases horigin with h0 | ⟨d, hd, hok⟩
    · simp at h0
    · have hpath : rec.packagePath = d.packagePath := disamBody_path env tree d rec hok
      have hd' : d ∈ deps ∨ d = { packagePath := "", frontendVersion := some "*" } := by
        by_cases hc : deps.any (fun dep => dep.packagePath == "package.json")
        · simp only [hc, if_pos] at hd
          exact Or.inl hd
        · simp only [hc, if_neg, Bool.false_eq_true, not_false_iff] at hd
          rcases List.mem_append.mp hd with h1 | h2
          · exact Or.inl h1
          · exact Or.inr (by simpa using h2)
      rcases hd' with hdd | hroot
      · by_cases hdp : d.packagePath = r.packagePath
        · have hdr : d = r := huniq d hdd hdp
          subst hdr
          exact disamBody_fails env tree d v e hv hop hfetch rec hok
        · exact hdp (hpath ▸ heq)
      · apply hne
        rw [← heq, hpath, hroot]
  · intro env tree r v hv hop hroot hcol
    have hlt : getLockfileType r.packagePath tree
        = .error (.typeError "Cannot read properties of undefined (reading 'some')") := by
      unfold getLockfileType
      simp [hroot, hcol]
    have hbody : disamBody env tree r
        = (.error (.typeError "Cannot read properties of undefined (reading 'some')"), []) := by
      unfold disamBody
      rw [hv, hop]
      simp [hlt]
    unfold disambiguateDependencies
    by_cases hc : [r].any (fun dep => dep.packagePath == "package.json")
    · simp only [hc, if_pos]
      unfold disamLoop
      simp [hbody, handleErrorRecognized]
    · simp only [hc, if_neg, Bool.false_eq_true, not_false_iff]
      unfold disamLoop
      simp [hbody, handleErrorRecognized]

/-- C2 witness: both parts of the amended claim at the concrete
counterexample environment. -/
theorem c2_no_root_fallback_witness :
    ((disambiguateDependencies c2CexEnv ["app/package.json", "package-lock.json"]
        [{ packagePath := "app/package.json", frontendVersion := some "^3.11.0" }]).results.filter
          (fun rec => rec.packagePath == "app/package.json")
      = [])
    ∧ ((disambiguateDependencies c2CexEnv ["app/package.json", "app/yarn.lock"]
        [{ packagePath := "app/package.json", frontendVersion := some "^3.11.0" }]).thrown
      = some (.typeError "Cannot read properties of undefined (reading 'some')")) :=
  ⟨c2_no_root_fallback.1 c2CexEnv ["app/package.json", "package-lock.json"]
      [{ packagePath := "app/package.json", frontendVersion := some "^3.11.0" }]
      { packagePath := "app/package.json", frontendVersion := some "^3.11.0" }
      "^3.11.0" (.requestError "Not Found")
      (by decide) rfl (by decide) (by decide) (by decide) rfl (by decide),
   c2_no_root_fallback.2 c2CexEnv ["app/package.json", "app/yarn.lock"]
      { packagePath := "app/package.json", frontendVersion := some "^3.11.0" }
      "^3.11.0" rfl (by decide) (by decide) (by decide)⟩

/-- C3, evaluation at the failing input (the claim is right and the code
wrong).  The claim (and the repository's own unit tests) say indirect
discovery emits `{ parent, specifiedVersion, actualVersion }` with
`actualVersion` the target's own resolved version from the same lockfile.
On the spec's Scenario 2 lockfile the code emits a single record whose only
version field `frontendVersion` is the *declared range* `"^3.0.0"`; the
target's resolved version `"3.2.1"` (second conjunct: the direct-resolution
lookup does find it) is never looked up or attached. -/
theorem c3_indirect_no_actual_version :
    getIndirectDependencyFromLockfile (some c3Lock) "package-lock.json" "package.json"
      = .ok [{ packagePath := "package.json", frontendVersion := some "^3.0.0",
               parent := some "node_modules/some-plugin" }]
    ∧ plResolveDirect (some c3Lock) = some "3.2.1" := by
  refine ⟨by decide, by decide⟩

/-- C4, evaluation at the failing input (the claim is right and the code
wrong).  The claim says every non-deny-listed repository yields exactly one
emitted record with explicit error annotations.  For a repository whose
analysis succeeds end to end (direct dependency found and disambiguated to
`3.11.0`, no errors recorded), `analyseRepo` still returns no record: it
sets `result.errorsThrown` from the non-existent `repoData.errorsThrown`
property (`RepoData` defines `errorThrown`), so `Result.validate` throws a
`TypeError` that escapes `analyseRepo`; the batch driver's catch ignores it
and the repository is silently dropped (no built record, no processed
index). -/
theorem c4_analysis_emits_nothing :
    checkDenyList "alphagov" "example-service" [] = false
    ∧ (analyseRepo c4Env [] [] "alphagov" "example-service").state.directDependencies
        = [{ packagePath := "package.json", frontendVersion := some "3.11.0" }]
    ∧ (analyseRepo c4Env [] [] "alphagov" "example-service").errorThrown = []
    ∧ (analyseRepo c4Env [] [] "alphagov" "example-service").returned = none
    ∧ (analyseRepo c4Env [] [] "alphagov" "example-service").escaped
        = some (.typeError "Cannot read properties of undefined (reading 'length')")
    ∧ filterDepsDriver [analyseRepo c4Env [] [] "alphagov" "example-service"] = ([], []) := by
  refine ⟨by decide, by decide, by decide, by decide, by decide, by decide⟩

/-- C5, counterexample to the claim as stated.  The claim says that when
both yarn sub-parsers fail the function returns a ParseFailure value rather
than raising.  In the code the YAML fallback is not wrapped in `try`, so
with input on which the legacy parser throws and the YAML parser throws
(here modelled by `c5CexEnv`, as the real `yaml.parse` does on malformed
input), `parseLockfile` raises the YAML parser's error. -/
theorem c5_parser_totality_cex :
    c5CexEnv.yarnLegacy "not a valid yarn.lock" = none
    ∧ parseLockfile c5CexEnv "not a valid yarn.lock" "yarn.lock"
        = .error (.other "YAMLParseError: bad yarn.lock") := ⟨rfl, rfl⟩

/-- C5, amended: `parseLockfile` never throws for `package-lock.json`
input (parse failure yields `undefined`); for `yarn.lock` input the legacy
parser is attempted first and its success is returned; but when the legacy
parser fails, the YAML parser's outcome is returned unprotected — if it
throws, `parseLockfile` raises that error instead of returning a failure
value. -/
theorem c5_parser_totality :
    (∀ (env : GhEnv) (data : String),
       parseLockfile env data "package-lock.json" = .ok (env.json5Lock data)) ∧
    (∀ (env : GhEnv) (data : String) (o : JsLockfile),
       env.yarnLegacy data = some o →
       parseLockfile env data "yarn.lock" = .ok (some o)) ∧
    (∀ (env : GhEnv) (data : String) (e : JsError),
       env.yarnLegacy data = none →
       env.yaml data = .error e →
       parseLockfile env data "yarn.lock" = .error e) := by
  refine ⟨?_, ?_, ?_⟩
  · intro env data
    rfl
  · intro env data o h
    unfold parseLockfile
    rw [h]
    rfl
  · intro env data e h1 h2
    unfold parseLockfile
    rw [h1, h2]
    rfl

/-- C5 witness: the double-failure branch of the amended claim at a
concrete input. -/
theorem c5_parser_totality_witness :
    parseLockfile c5CexEnv "x" "yarn.lock" = .error (.other "YAMLParseError: bad yarn.lock") :=
  c5_parser_totality.2.2 c5CexEnv "x" (.other "YAMLParseError: bad yarn.lock") rfl rfl

/-- C6, evaluation at the failing input (the claim is right and the code
wrong).  The claim (and the repository's own unit test ‘should return
yarn.lock if it exists in the package path’) says the locator checks the
manifest's directory for `package-lock.json` then `yarn.lock`.  With a
colocated `src/yarn.lock` and no `package-lock.json`, `getLockfileType`
throws a `TypeError` (it calls `checkFileExists('yarn.lock')` without the
tree argument) instead of returning `yarn.lock`; and (fourth conjunct) the
first branch accepts a repository-root `package-lock.json` even when only a
`yarn.lock` is colocated with the manifest, so the check is not
colocated-first either. -/
theorem c6_lockfile_locator :
    getLockfileType "src/package.json" ["src/yarn.lock"]
      = .error (.typeError "Cannot read properties of undefined (reading 'some')")
    ∧ checkFileExists "src/yarn.lock" ["src/yarn.lock"] = true
    ∧ checkFileExists "src/package-lock.json" ["src/yarn.lock"] = false
    ∧ getLockfileType "app/package.json" ["package-lock.json", "app/yarn.lock"]
      = .ok "package-lock.json" := by
  refine ⟨by decide, by decide, by decide, by decide⟩

/-- C7: for every repository whose owner and name appear in the deny
list, `analyseRepo` returns `null` — no result record and no error record —
and performs zero API-client calls. -/
theorem c7_deny_list_hard_stop (env : GhEnv) (denyList : List (String × String))
    (serviceOwners : List String) (repoOwner repoName : String)
    (ho : repoOwner ≠ "") (hn : repoName ≠ "")
    (hd : checkDenyList repoOwner repoName denyList = true) :
    (analyseRepo env denyList serviceOwners repoOwner repoName).returned = none
    ∧ (analyseRepo env denyList serviceOwners repoOwner repoName).escaped = none
    ∧ (analyseRepo env denyList serviceOwners repoOwner repoName).calls = []
    ∧ (analyseRepo env denyList serviceOwners repoOwner repoName).errorThrown = [] := by
  have h1 : (repoOwner == "") = false := by simp [ho]
  have h2 : (repoName == "") = false := by simp [hn]
  refine ⟨?_, ?_, ?_, ?_⟩ <;> simp [analyseRepo, h1, h2, hd]

/-- C7 witness: a concrete deny-listed repository yields `null`, no
recorded errors and an empty call trace. -/
theorem c7_deny_list_hard_stop_witness :
    (analyseRepo c7WitEnv [("alphagov", "denied-repo")] [] "alphagov" "denied-repo").returned = none
    ∧ (analyseRepo c7WitEnv [("alphagov", "denied-repo")] [] "alphagov" "denied-repo").escaped = none
    ∧ (analyseRepo c7WitEnv [("alphagov", "denied-repo")] [] "alphagov" "denied-repo").calls = []
    ∧ (analyseRepo c7WitEnv [("alphagov", "denied-repo")] [] "alphagov" "denied-repo").errorThrown
        = [] :=
  c7_deny_list_hard_stop c7WitEnv [("alphagov", "denied-repo")] [] "alphagov" "denied-repo"
    (by decide) (by decide) (by decide)

/-- C8, counterexample to the claim as stated.  The claim says that when
the target appears in both dependency maps the runtime declaration's version
is emitted and the development one ignored.  A manifest declaring the target
in its runtime dependencies with the legal empty-string range `""` (falsy in
JavaScript) and in its development dependencies with `3.0.0` emits the
development version `3.0.0`. -/
theorem c8_direct_scan_cex :
    (jsGet [("govuk-frontend", "")] "govuk-frontend" = some "")
    ∧ getDirectDependencies [c8CexManifest]
        = [{ packagePath := "package.json", frontendVersion := some "3.0.0" }] := by
  refine ⟨by decide, by decide⟩

/-- C8, amended: the direct scan checks runtime dependencies first and
development dependencies second, and the first declaration with a truthy
(non-empty) version wins: a truthy runtime declaration is emitted (the
development one ignored); with a falsy runtime declaration, a truthy
development declaration is emitted; a manifest with no truthy declaration in
either map contributes no record. -/
theorem c8_direct_scan :
    (∀ (packageObjects : List PackageObject) (po : PackageObject) (v : String),
       po ∈ packageObjects →
       po.content.dependencies.bind (fun m => jsGet m "govuk-frontend") = some v →
       v ≠ "" →
       ({ packagePath := po.path, frontendVersion := some v } : DepRecord)
         ∈ getDirectDependencies packageObjects) ∧
    (∀ (packageObjects : List PackageObject) (po : PackageObject) (w : String),
       po ∈ packageObjects →
       jsTruthy (po.content.dependencies.bind (fun m => jsGet m "govuk-frontend")) = false →
       po.content.devDependencies.bind (fun m => jsGet m "govuk-frontend") = some w →
       w ≠ "" →
       ({ packagePath := po.path, frontendVersion := some w } : DepRecord)
         ∈ getDirectDependencies packageObjects) ∧
    (∀ po : PackageObject,
       jsTruthy (po.content.dependencies.bind (fun m => jsGet m "govuk-frontend")) = false →
       jsTruthy (po.content.devDependencies.bind (fun m => jsGet m "govuk-frontend")) = false →
       getDirectDependencies [po] = []) := by
  refine ⟨?_, ?_, ?_⟩
  · intro pos po v hmem hdep hv
    induction pos with
    | nil => simp at hmem
    | cons q rest ih =>
      rcases List.mem_cons.mp hmem with h1 | h2
      · subst h1
        unfold getDirectDependencies
        dsimp only
        rw [hdep]
        have ht : jsTruthy (some v) = true := by simp [jsTruthy, hv]
        simp only [ht, if_pos]
        exact List.mem_append_left _ (by simp)
      · unfold getDirectDependencies
        exact List.mem_append_right _ (ih h2)
  · intro pos po w hmem hdep hdev hw
    induction pos with
    | nil => simp at hmem
    | cons q rest ih =>
      rcases List.mem_cons.mp hmem with h1 | h2
      · subst h1
        unfold getDirectDependencies
        dsimp only
        rw [hdep, hdev]
        have ht : jsTruthy (some w) = true := by simp [jsTruthy, hw]
        simp [ht]
      · unfold getDirectDependencies
        exact List.mem_append_right _ (ih h2)
  · intro po hdep hdev
    unfold getDirectDependencies
    dsimp only
    rw [hdep, hdev]
    simp [jsTruthy]
    rfl

/-- C8 witness: a manifest declaring the target in its runtime
dependencies yields that record. -/
theorem c8_direct_scan_witness :
    ({ packagePath := "package.json", frontendVersion := some "3.11.0" } : DepRecord)
      ∈ getDirectDependencies
          [{ path := "package.json",
             content := { dependencies := some [("govuk-frontend", "3.11.0")] } }] :=
  c8_direct_scan.1
    [{ path := "package.json",
       content := { dependencies := some [("govuk-frontend", "3.11.0")] } }]
    { path := "package.json",
      content := { dependencies := some [("govuk-frontend", "3.11.0")] } }
    "3.11.0" (by decide) rfl (by decide)

/-- C9: in every `analyseRepo` run, the `Result`'s `directDependencies`
and `indirectDependencies` are never both non-empty — indirect discovery
runs only when the direct scan returned an empty list, and disambiguation
only when it did not. -/
theorem c9_direct_indirect_exclusion (env : GhEnv) (denyList : List (String × String))
    (serviceOwners : List String) (repoOwner repoName : String) :
    (analyseRepo env denyList serviceOwners repoOwner repoName).state.directDependencies = [] ∨
    (analyseRepo env denyList serviceOwners repoOwner repoName).state.indirectDependencies = [] := by
  have hdj := tryBlock_dj env serviceOwners repoOwner
  unfold analyseRepo
  repeat' split
  all_goals try exact Or.inl rfl
  all_goals dsimp only
  all_goals repeat' split
  all_goals rcases hdj with h | h
  all_goals first
    | (left; simpa [finishAnalyse_eq] using h)
    | (right; simpa [finishAnalyse_eq] using h)

/-- C10: with a defined (non-`undefined`) `errorsThrown` list,
`Result.validate` returns `true` exactly when `errorsThrown` is empty and at
least one of `directDependencies` non-empty, `indirectDependencies`
non-empty, or `unknownLockFileType` true holds. -/
theorem c10_is_valid_iff (direct : List DepRecord) (indirect : List (List DepRecord))
    (unknown : Option Bool) (errs : List String) :
    validateR direct indirect unknown (some errs) = .ok true ↔
      errs = [] ∧ (direct ≠ [] ∨ indirect ≠ [] ∨ unknown = some true) := by
  have hu : (jsTruthyB unknown = true) ↔ unknown = some true := by
    cases unknown with
    | none => simp [jsTruthyB]
    | some b => cases b <;> simp [jsTruthyB]
  unfold validateR
  simp only [Except.ok.injEq]
  constructor
  · intro h
    by_cases hB : errs.length > 0
    · rw [if_pos hB] at h; cases h
    · rw [if_neg hB] at h
      by_cases hA : (direct.length == 0 && indirect.length == 0 && !jsTruthyB unknown) = true
      · rw [if_pos hA] at h; cases h
      · rw [if_neg hA] at h
        refine ⟨List.length_eq_zero.mp (by omega), ?_⟩
        simp only [Bool.and_eq_true, Bool.not_eq_true', beq_iff_eq,
          List.length_eq_zero] at hA
        by_cases hd : direct = []
        · by_cases hi : indirect = []
          · rcases hj : jsTruthyB unknown with _ | _
            · exact absurd ⟨⟨hd, hi⟩, hj⟩ hA
            · exact Or.inr (Or.inr (hu.mp hj))
          · exact Or.inr (Or.inl hi)
        · exact Or.inl hd
  · rintro ⟨he, hor⟩
    subst he
    rw [if_neg (by simp)]
    have hA : (direct.length == 0 && indirect.length == 0 && !jsTruthyB unknown) = false := by
      rcases hor with h | h | h
      · simp [List.length_eq_zero, h]
      · simp [List.length_eq_zero, h]
      · simp [h, jsTruthyB]
    rw [hA]
    rfl

/-- C9 witness: the mutual-exclusion disjunction at a concrete run. -/
theorem c9_direct_indirect_exclusion_witness :
    (analyseRepo c7WitEnv [] [] "an-owner" "a-repo").state.directDependencies = [] ∨
    (analyseRepo c7WitEnv [] [] "an-owner" "a-repo").state.indirectDependencies = [] :=
  c9_direct_indirect_exclusion c7WitEnv [] [] "an-owner" "a-repo"

/-- C10 witness: a result with one direct dependency, no errors and a
defined `errorsThrown` validates as `true`. -/
theorem c10_is_valid_iff_witness :
    validateR [{ packagePath := "package.json", frontendVersion := some "3.11.0" }] []
      (some false) (some []) = .ok true :=
  (c10_is_valid_iff _ _ _ _).mpr ⟨rfl, Or.inl (by decide)⟩

end GhStats
